import Mathlib

/-!
Verification of the receipt-printer rendering engine
(`discord-bot/image_backend.py`, class `ImageBackend`).

The Python code is shallowly embedded below.  Strings are modelled by
`String` (Python `len` counts code points, as does `String.length`);
Python string helpers (`strip`, `split`, `ljust`, `in`) are embedded as
`py`-prefixed functions over `String`/`List Char`.  PIL fonts are modelled
at two levels:
* `FontAsset` (a path and a pixel size) captures the identity of a loaded
  font, for the font-resolution logic of `ImageBackend.__init__`;
* `Font` (width/height metric functions) captures the glyph metrics used
  by the layout code (`getbbox`), which are environment-provided data, so
  the layout pipeline is parametrised over them.
The stdlib `textwrap.fill` call (with `break_long_words=False`,
`break_on_hyphens=False`) and the third-party `qrcode` library are not
part of the repository; they are embedded from their documented semantics
(greedy word wrap on a character budget; `make(fit=True)` picking the
smallest QR version whose capacity fits the payload).
-/

namespace ReceiptPrinter

/-- The five font attributes an emitted line can carry in
`_parse_markdown_to_formatted_lines` / `_parse_table`: `self.font`,
`self.bold_font`, `self.h1_font`, `self.h2_font`, `self.h3_font`. -/
inductive Style where
  | Plain
  | Bold
  | H1
  | H2
  | H3
deriving DecidableEq, Repr

/-- A line of text tagged with the font attribute the Python code attaches
to it (the dicts `{'text': ..., 'font': ...}`). -/
abbrev StyledLine := String × Style

/-- Python `str.strip()`: remove leading and trailing whitespace. -/
def pyStrip (s : String) : String :=
  String.mk (((s.toList.dropWhile Char.isWhitespace).reverse.dropWhile
    Char.isWhitespace).reverse)

/-- Python `c in s` for a single character `c`. -/
def pyContains (s : String) (c : Char) : Bool :=
  s.toList.contains c

/-- Substring occurrence check over character lists. -/
def infixAt (pat : List Char) : List Char → Bool
  | [] => pat.isEmpty
  | c :: rest => pat.isPrefixOf (c :: rest) || infixAt pat rest

/-- Python `sub in s` for a substring `sub`. -/
def pyInStr (sub s : String) : Bool :=
  infixAt sub.toList s.toList

/-- Python `s.ljust(w)`: pad on the right with spaces up to width `w`. -/
def pyLjust (s : String) (w : Nat) : String :=
  s ++ String.mk (List.replicate (w - s.length) ' ')

/-- Helper for `pySplitChar`: split the remaining characters at every
occurrence of `c`, `acc` holding the reversed current field. -/
def splitCharAux (c : Char) : List Char → List Char → List String
  | [], acc => [String.mk acc.reverse]
  | x :: xs, acc =>
    if x == c then String.mk acc.reverse :: splitCharAux c xs []
    else splitCharAux c xs (x :: acc)

/-- Python `s.split(c)` for a one-character separator `c` (the code only
splits on `'\n'` and `'|'`): empty fields are kept, and the empty string
splits to one empty field. -/
def pySplitChar (c : Char) (s : String) : List String :=
  splitCharAux c s.toList []

/-- Python `sep.join(parts)`. -/
def pyJoin (sep : String) : List String → String
  | [] => ""
  | [x] => x
  | x :: y :: xs => x ++ sep ++ pyJoin sep (y :: xs)

/-- UTF-8 byte length of a string (Python `len(data.encode())`), used for
QR byte-mode capacity checks. -/
def utf8Len (s : String) : Nat :=
  (s.toList.map Char.utf8Size).sum

/-! ## Text wrapping

`ImageBackend.text_to_image` wraps each non-blank line with
`textwrap.fill(text, width=35, break_long_words=False,
break_on_hyphens=False)`.  That is a greedy word wrap on a *character*
budget: words accumulate into the current line while the joined length
stays within the budget; a word that does not fit starts a new line; a
word longer than the whole budget is never split and occupies a line by
itself.  Modelled here for whitespace-separated words (the engine's lines
contain no tabs after the `'\n'` split). -/

/-- The whitespace-separated words of a line (Python `textwrap`'s chunks,
with whitespace runs collapsed). -/
def pyWords (s : String) : List String :=
  (pySplitChar ' ' s).filter (fun w => w ≠ "")

/-- Greedy accumulation of words into lines within a character budget:
the current candidate `cur` grows while `cur.length + 1 + word.length`
stays within `width`; otherwise `cur` is committed and the word starts the
next line.  Words are never split. -/
def wrapGo (width : Nat) (cur : String) : List String → List String
  | [] => [cur]
  | w :: rest =>
    if cur.length + 1 + w.length ≤ width then
      wrapGo width (cur ++ " " ++ w) rest
    else
      cur :: wrapGo width w rest

/-- `textwrap.fill(s, width, break_long_words=False,
break_on_hyphens=False)` followed by the `'\n'` split the caller performs:
the list of wrapped lines.  An all-whitespace input yields one empty line
(`''.split('\n') == ['']`). -/
def fillLines (width : Nat) (s : String) : List String :=
  match pyWords s with
  | [] => [""]
  | w :: rest => wrapGo width w rest

/-! ## Inline emphasis stripping

`_parse_markdown_to_formatted_lines` removes inline markers with
`re.sub(r'\*\*(.*?)\*\*', r'\1', line)` and then
`re.sub(r'\*(.*?)\*', r'\1', ...)`: repeatedly find the leftmost `**`
(resp. `*`), lazily match up to the next `**` (resp. `*`), and keep only
the content. -/

/-- Split a character list at the first occurrence of `**`:
returns the part before it and the part after it. -/
def splitAtStar2 : List Char → Option (List Char × List Char)
  | [] => none
  | '*' :: '*' :: rest => some ([], rest)
  | c :: rest => (splitAtStar2 rest).map (fun p => (c :: p.1, p.2))

/-- Split a character list at the first occurrence of `*`. -/
def splitAtStar1 : List Char → Option (List Char × List Char)
  | [] => none
  | '*' :: rest => some ([], rest)
  | c :: rest => (splitAtStar1 rest).map (fun p => (c :: p.1, p.2))

/-- One non-greedy global substitution of `\*\*(.*?)\*\*` by the captured
content.  `fuel` bounds the number of replacements; each replacement
consumes at least four characters, so `l.length` is always enough. -/
def subStar2Fuel : Nat → List Char → List Char
  | 0, l => l
  | fuel + 1, l =>
    match splitAtStar2 l with
    | none => l
    | some (pre, rest) =>
      match splitAtStar2 rest with
      | none => l
      | some (content, rem) => pre ++ content ++ subStar2Fuel fuel rem

/-- One non-greedy global substitution of `\*(.*?)\*` by the captured
content. -/
def subStar1Fuel : Nat → List Char → List Char
  | 0, l => l
  | fuel + 1, l =>
    match splitAtStar1 l with
    | none => l
    | some (pre, rest) =>
      match splitAtStar1 rest with
      | none => l
      | some (content, rem) => pre ++ content ++ subStar1Fuel fuel rem

/-- The two `re.sub` passes removing `**...**` and then `*...*` markers. -/
def cleanInline (line : String) : String :=
  let l1 := subStar2Fuel line.toList.length line.toList
  String.mk (subStar1Fuel l1.length l1)

/-- Python `re.match(r'^\d+\. ', line)`: one or more digits followed by
`". "` at the start of the line. -/
def isNumberedItem (line : String) : Bool :=
  let ds := line.toList.takeWhile Char.isDigit
  !ds.isEmpty && ((line.toList.drop ds.length).take 2 == ['.', ' '])

/-- The non-table branches of `_parse_markdown_to_formatted_lines`,
applied to one (already stripped) line, in source order. -/
def styleOne (line : String) : StyledLine :=
  if line.startsWith "# " then (line.drop 2, Style.H1)
  else if line.startsWith "## " then (line.drop 3, Style.H2)
  else if line.startsWith "### " then (line.drop 4, Style.H3)
  else if line.startsWith "**" && line.endsWith "**" then
    ((line.drop 2).dropRight 2, Style.Bold)
  else if line.startsWith "- " || line.startsWith "* " then
    ("• " ++ line.drop 2, Style.Plain)
  else if isNumberedItem line then (line, Style.Plain)
  else if pyInStr "**" line || pyContains line '*' then
    (cleanInline line, Style.Plain)
  else (line, Style.Plain)

/-! ## Table formatting (`ImageBackend._parse_table`)

`_parse_table(lines, start_idx)` scans forward while the current line
contains `'|'` or is blank, collecting the non-blank lines.  The scan is
embedded over the suffix `lines.drop start_idx`, returning the captured
lines together with the number of lines the loop advanced over. -/

/-- The capture loop of `_parse_table`: while the line contains `'|'` or
is blank, advance; non-blank lines are captured.  Returns the captured
lines and the number of lines consumed. -/
def tableScanAux : List String → List String × Nat
  | [] => ([], 0)
  | l :: rest =>
    if pyContains l '|' || pyStrip l == "" then
      let r := tableScanAux rest
      (if pyStrip l == "" then r.1 else l :: r.1, r.2 + 1)
    else ([], 0)

/-- `[cell.strip() for cell in row.split('|')[1:-1]]`: the cell extraction
`_parse_table` applies to the header row and to each data row. -/
def rowCells (row : String) : List String :=
  (((pySplitChar '|' row).drop 1).dropLast).map pyStrip

/-- Column widths: for each header column index, `min(max cell length
over header and data rows + 2, 15)`; rows shorter than the header count 0
for that column (`len(row[col_idx]) if col_idx < len(row) else 0`). -/
def colWidths (header_cells : List String) (data_rows : List (List String)) :
    List Nat :=
  (List.range header_cells.length).map (fun j =>
    min ((((header_cells :: data_rows).map
      (fun r => (r.getD j "").length)).foldl max 0) + 2) 15)

/-- One formatted data row: `'|'.join((row[col_idx] if col_idx < len(row)
else '').ljust(width) for col_idx, width in enumerate(col_widths))`. -/
def rowText (col_widths : List Nat) (row : List String) : String :=
  pyJoin "|" (col_widths.enum.map
    (fun p => pyLjust (row.getD p.1 "") p.2))

/-- The formatting part of `_parse_table`, applied to the captured lines:
a Bold header row padded to the column widths, a dash separator of the
header line's length, then one Plain line per data row.  Data rows come
from `table_lines[2:]` (the separator at index 1 is skipped); blank rows
and rows with no extracted cells are dropped. -/
def formatTable (table_lines : List String) : List StyledLine :=
  let header_cells := rowCells (table_lines.headD "")
  let data_rows := (table_lines.drop 2).filterMap (fun rl =>
    if pyStrip rl == "" then none
    else
      let cells := rowCells rl
      if cells.isEmpty then none else some cells)
  let widths := colWidths header_cells data_rows
  let header_line := pyJoin "|"
    (List.zipWith pyLjust header_cells widths)
  (header_line, Style.Bold) ::
    (String.mk (List.replicate header_line.length '-'), Style.Plain) ::
    data_rows.map (fun row => (rowText widths row, Style.Plain))

/-- `_parse_table` on the suffix starting at the current line: the
emitted styled lines and the number of input lines consumed.  Fewer than
two captured lines aborts: no output, exactly one line consumed
(`return [], start_idx + 1`). -/
def parseTableRel (ls : List String) : List StyledLine × Nat :=
  let r := tableScanAux ls
  if r.1.length < 2 then ([], 1) else (formatTable r.1, r.2)

/-- `ImageBackend._parse_table(lines, start_idx)`: emitted styled lines
and the next line index. -/
def parseTable (lines : List String) (start_idx : Nat) :
    List StyledLine × Nat :=
  let r := parseTableRel (lines.drop start_idx)
  (r.1, start_idx + r.2)

/-! ## Markdown parsing (`_parse_markdown_to_formatted_lines`)

The line loop is embedded over the suffix of remaining lines, with a fuel
argument bounding the number of iterations; every iteration consumes at
least one line (the table branch consumes `parseTableRel`'s count, which
is at least 1), so fuel `lines.length` never runs out. -/

/-- The loop body of `_parse_markdown_to_formatted_lines`: the table
branch fires when the stripped current line and the raw next line both
contain `'|'`; it emits the table lines plus one blank spacing line and
jumps past the block.  All other lines go through `styleOne`. -/
def parseMDFuel : Nat → List String → List StyledLine
  | 0, _ => []
  | _, [] => []
  | fuel + 1, l :: rest =>
    let line := pyStrip l
    if pyContains line '|' && !rest.isEmpty && pyContains (rest.headD "") '|' then
      let (tl, n) := parseTableRel (l :: rest)
      tl ++ [("", Style.Plain)] ++ parseMDFuel fuel ((l :: rest).drop n)
    else
      styleOne line :: parseMDFuel fuel rest

/-- `ImageBackend._parse_markdown_to_formatted_lines(markdown_text)`. -/
def parseMarkdown (markdown_text : String) : List StyledLine :=
  let lines := pySplitChar '\n' markdown_text
  parseMDFuel lines.length lines

/-! ## Fonts as metrics, configuration, and the raster pipeline -/

/-- A loaded PIL font, seen through the metric queries the layout code
makes: `getbbox(text)` width (`bbox[2] - bbox[0]`) and height
(`bbox[3] - bbox[1]`).  Metrics are environment data (the font files are
not part of the repository), so the pipeline is parametrised over them. -/
structure Font where
  widthOf : String → Nat
  heightOf : String → Nat

/-- The five metric fonts held by an `ImageBackend` instance. -/
structure Metrics where
  font : Font
  bold_font : Font
  h1_font : Font
  h2_font : Font
  h3_font : Font

/-- The numeric configuration of `ImageBackend.__init__` (defaults:
`max_width=512`, `font_size=24`, `line_spacing=6`, `padding=20`). -/
structure Config where
  max_width : Nat
  font_size : Nat
  line_spacing : Nat
  padding : Nat
deriving DecidableEq, Repr

/-- The default configuration. -/
def cfg0 : Config := ⟨512, 24, 6, 20⟩

/-- The usable width for text: receipt width minus padding on both sides
(spec §GLOSSARY, "content width"). -/
def contentWidth (cfg : Config) : Nat :=
  cfg.max_width - 2 * cfg.padding

/-- Which metric font a style tag denotes on a backend instance. -/
def fontOf (m : Metrics) : Style → Font
  | Style.Plain => m.font
  | Style.Bold => m.bold_font
  | Style.H1 => m.h1_font
  | Style.H2 => m.h2_font
  | Style.H3 => m.h3_font

/-- The per-line input of `text_to_image`: markdown-parsed styled lines,
or one Plain line per `'\n'`-separated input line. -/
def renderedLines (text : String) (is_markdown : Bool) : List StyledLine :=
  if is_markdown then parseMarkdown text
  else (pySplitChar '\n' text).map (fun l => (l, Style.Plain))

/-- The wrapping/measuring pass of `text_to_image`: returns the wrapped
styled lines, the accumulated total height (per-line `getbbox` height
plus line spacing; blank lines use the `'A'` reference height), and the
maximum wrapped-line pixel width. -/
def wrapPass (m : Metrics) (cfg : Config) :
    List StyledLine → List StyledLine × Nat × Nat
  | [] => ([], 0, 0)
  | (t, sty) :: rest =>
    let f := fontOf m sty
    let (wl, h, mw) := wrapPass m cfg rest
    if pyStrip t == "" then
      (("", sty) :: wl, f.heightOf "A" + cfg.line_spacing + h, mw)
    else
      let ls := fillLines 35 t
      (ls.map (fun l => (l, sty)) ++ wl,
       (ls.map (fun l => f.heightOf l + cfg.line_spacing)).sum + h,
       max ((ls.map f.widthOf).foldl max 0) mw)

/-- The wrapped styled lines `text_to_image` lays out. -/
def wrappedStyledLines (m : Metrics) (cfg : Config) (text : String)
    (is_markdown : Bool) : List StyledLine :=
  (wrapPass m cfg (renderedLines text is_markdown)).1

/-- The drawing pass of `text_to_image`: non-blank lines are drawn at
`x = padding` at the running vertical offset; the offset advances by the
reference glyph height (`getbbox('A')`) plus line spacing for every line,
blank or not. -/
def drawPass (m : Metrics) (cfg : Config) :
    List StyledLine → Nat → List (Nat × Nat × String × Style)
  | [], _ => []
  | (t, sty) :: rest, y =>
    let f := fontOf m sty
    let d := drawPass m cfg rest (y + f.heightOf "A" + cfg.line_spacing)
    if pyStrip t == "" then d else (cfg.padding, y, t, sty) :: d

/-- The text canvas: its size and the draw calls made on it (position,
text, style).  The pixel buffer is determined by the draw list given the
metrics, so bit-identity of canvases is modelled as equality of size and
draw list. -/
structure TextImage where
  width : Nat
  height : Nat
  draws : List (Nat × Nat × String × Style)
deriving DecidableEq, Repr

/-- `ImageBackend.text_to_image(text, is_markdown)`: canvas width is
`min(max_width, max line width + 2*padding)`, height is the measured
total plus `2*padding`. -/
def textToImage (m : Metrics) (cfg : Config) (text : String)
    (is_markdown : Bool) : TextImage :=
  let r := wrapPass m cfg (renderedLines text is_markdown)
  { width := min cfg.max_width (r.2.2 + cfg.padding * 2)
    height := r.2.1 + cfg.padding * 2
    draws := drawPass m cfg r.1 cfg.padding }

/-! ## QR generation (`ImageBackend.generate_qr_code`)

The `qrcode` library is external; its documented behaviour is embedded:
`QRCode(version=1, error_correction=ERROR_CORRECT_M, ...)` followed by
`make(fit=True)` picks the smallest version `≥ 1` whose capacity fits the
data, raising `DataOverflowError` only if no version up to 40 fits.
`qrCapacityTableM` is the standard byte-mode capacity table at
error-correction level M (versions 1..40); the embedding covers byte-mode
payloads.  A version-`v` symbol has `4*v + 17` modules per side, and the
rendered image is `(modules + 2*border) * box_size` pixels wide. -/

/-- Byte-mode data capacity (in bytes) of QR versions 1..40 at
error-correction level M. -/
def qrCapacityTableM : List Nat :=
  [14, 26, 42, 62, 84, 106, 122, 152, 180, 213,
   251, 287, 331, 362, 412, 450, 504, 560, 624, 666,
   711, 779, 857, 911, 997, 1059, 1125, 1190, 1264, 1370,
   1452, 1538, 1628, 1722, 1809, 1911, 1989, 2099, 2213, 2331]

/-- Capacity of version `v` (1-based) at level M; 0 outside 1..40. -/
def capM (v : Nat) : Nat := qrCapacityTableM.getD (v - 1) 0

/-- `qrcode`'s `best_fit` from a starting version: the smallest version
in `start..40` whose capacity fits `len` bytes, if any. -/
def bestFit (len start : Nat) : Option Nat :=
  (List.range' start (41 - start)).find? (fun v => len ≤ capM v)

/-- The QR bitmap: the version it was built at and its pixel size. -/
structure QrImage where
  version : Nat
  width : Nat
  height : Nat
deriving DecidableEq, Repr

/-- `ImageBackend.generate_qr_code(data)`: fit the smallest version for
the payload (border 4, level M); compute `box_size = max(1,
(max_width - border*2) // modules_count)`; rebuild at that box size; if
the result is still wider than `max_width`, downscale to exactly
`max_width` preserving aspect ratio.  A payload no version fits is a
`DataOverflowError` propagated to the caller. -/
def generateQr (max_width : Nat) (data : String) : Except String QrImage :=
  match bestFit (utf8Len data) 1 with
  | none => Except.error "DataOverflowError"
  | some v =>
    let modules := 4 * v + 17
    let border := 4
    let box := max 1 ((max_width - border * 2) / modules)
    let w := (modules + 2 * border) * box
    if max_width < w then
      Except.ok ⟨v, max_width, w * max_width / w⟩
    else
      Except.ok ⟨v, w, w⟩

/-! ## Composition (`ImageBackend.text_with_qr_to_image`) -/

/-- The combined canvas: its size, the paste offsets of the text canvas
and the QR bitmap, and the two pasted images. -/
structure CombinedImage where
  width : Nat
  height : Nat
  textPos : Nat × Nat
  qrPos : Nat × Nat
  textImg : TextImage
  qrImg : QrImage
deriving DecidableEq, Repr

/-- The canvas `text_with_qr_to_image` returns: the text canvas alone, or
the combined canvas. -/
inductive BuiltImage where
  | textOnly (img : TextImage)
  | withQr (c : CombinedImage)
deriving DecidableEq, Repr

/-- Width of a built canvas. -/
def BuiltImage.width : BuiltImage → Nat
  | BuiltImage.textOnly img => img.width
  | BuiltImage.withQr c => c.width

/-- `ImageBackend.text_with_qr_to_image(text, qr_data, is_markdown)`:
renders the text canvas; when `qr_data` is truthy (present and
non-empty), generates the QR bitmap, then pastes the text canvas at
`(0, 0)` and the QR bitmap below it at
`((combined_width - qr_width) // 2, text_height + padding)` on a canvas
`max(text_width, qr_width)` wide and
`text_height + qr_height + padding` tall. -/
def textWithQr (m : Metrics) (cfg : Config) (text : String)
    (qr_data : Option String) (is_markdown : Bool) :
    Except String BuiltImage :=
  let ti := textToImage m cfg text is_markdown
  match qr_data with
  | none => Except.ok (BuiltImage.textOnly ti)
  | some s =>
    if s == "" then Except.ok (BuiltImage.textOnly ti)
    else
      match generateQr cfg.max_width s with
      | Except.error e => Except.error e
      | Except.ok qi =>
        let w := max ti.width qi.width
        Except.ok (BuiltImage.withQr
          { width := w
            height := ti.height + qi.height + cfg.padding
            textPos := (0, 0)
            qrPos := ((w - qi.width) / 2, ti.height + cfg.padding)
            textImg := ti
            qrImg := qi })

/-! ## Statefulness

No `ImageBackend` method after `__init__` assigns any attribute of
`self`; each call reads the fonts and configuration and returns a fresh
image.  The methods are therefore embedded as state-passing functions
that return the receiver unchanged. -/

/-- An `ImageBackend` instance: its configuration and loaded fonts. -/
structure Backend where
  cfg : Config
  metrics : Metrics

/-- `text_with_qr_to_image` as a state-passing method call: the result
and the instance after the call. -/
def textWithQrSt (b : Backend) (text : String) (qr_data : Option String)
    (is_markdown : Bool) : Except String BuiltImage × Backend :=
  (textWithQr b.metrics b.cfg text qr_data is_markdown, b)

/-! ## Font resolution (`ImageBackend.__init__`)

Font loading depends on which candidate files exist in the environment;
it is embedded over a predicate `env : String → Bool` telling which paths
`ImageFont.truetype` can load.  A successfully loaded font is identified
by its path and requested pixel size.  Header sizes are
`int(font_size * 1.8)`, `int(font_size * 1.5)`, `int(font_size * 1.2)`,
embedded as `font_size * 18 / 10` etc. (exact for these multipliers). -/

/-- A loaded font asset: source path and pixel size. -/
structure FontAsset where
  path : String
  size : Nat
deriving DecidableEq, Repr

/-- The regular-font candidate list of `__init__`. -/
def font_paths : List String :=
  ["/usr/share/fonts/truetype/dejavu/DejaVuSans.ttf",
   "/usr/share/fonts/truetype/dejavu/DejaVuSansMono.ttf",
   "/usr/share/fonts/truetype/liberation/LiberationSans-Regular.ttf",
   "/usr/share/fonts/truetype/liberation/LiberationMono-Regular.ttf",
   "/usr/share/fonts/truetype/ubuntu/Ubuntu-Regular.ttf",
   "/usr/share/fonts/truetype/ubuntu/UbuntuMono-Regular.ttf",
   "/System/Library/Fonts/Arial.ttf",
   "/System/Library/Fonts/Monaco.ttf"]

/-- The bold-font candidate list of `__init__`. -/
def bold_font_paths : List String :=
  ["/usr/share/fonts/truetype/dejavu/DejaVuSans-Bold.ttf",
   "/usr/share/fonts/truetype/dejavu/DejaVuSansMono-Bold.ttf",
   "/usr/share/fonts/truetype/liberation/LiberationSans-Bold.ttf",
   "/usr/share/fonts/truetype/liberation/LiberationMono-Bold.ttf",
   "/usr/share/fonts/truetype/ubuntu/Ubuntu-Bold.ttf",
   "/usr/share/fonts/truetype/ubuntu/UbuntuMono-Bold.ttf",
   "/System/Library/Fonts/Arial Bold.ttf",
   "/System/Library/Fonts/Monaco.ttf"]

/-- The emoji/symbol fallback candidate list of `__init__`. -/
def emoji_font_paths : List String :=
  ["/usr/share/fonts/truetype/noto/NotoColorEmoji.ttf",
   "/usr/share/fonts/truetype/noto/NotoEmoji-Regular.ttf",
   "/usr/share/fonts/truetype/dejavu/DejaVuSans.ttf",
   "/System/Library/Fonts/Apple Color Emoji.ttc"]

/-- A try/except loop over candidate paths: the first loadable path wins,
at the requested size. -/
def firstLoadable (env : String → Bool) (paths : List String)
    (size : Nat) : Option FontAsset :=
  (paths.find? env).map (fun p => ⟨p, size⟩)

/-- The font attributes resolved by `__init__`. -/
structure ResolvedFonts where
  font : FontAsset
  bold_font : FontAsset
  h1_font : FontAsset
  h2_font : FontAsset
  h3_font : FontAsset
  emoji_font : FontAsset
deriving DecidableEq, Repr

/-- The font-loading logic of `__init__`: the regular font is the first
loadable candidate at `font_size` (falling back to `arial.ttf`, then to
PIL's built-in default); the bold font is the first loadable bold
candidate at `font_size`, else the regular font; each header font is the
first loadable regular candidate at its scaled size, else the regular
font; the emoji font is the first loadable emoji candidate, else the
regular font. -/
def mkFonts (env : String → Bool) (font_size : Nat) : ResolvedFonts :=
  let plain :=
    match firstLoadable env font_paths font_size with
    | some f => f
    | none =>
      if env "arial.ttf" then ⟨"arial.ttf", font_size⟩
      else ⟨"PIL builtin default", 10⟩
  let pick := fun (paths : List String) (size : Nat) =>
    match firstLoadable env paths size with
    | some f => f
    | none => plain
  { font := plain
    bold_font := pick bold_font_paths font_size
    h1_font := pick font_paths (font_size * 18 / 10)
    h2_font := pick font_paths (font_size * 15 / 10)
    h3_font := pick font_paths (font_size * 12 / 10)
    emoji_font := pick emoji_font_paths font_size }

/-! ## Concrete fixtures used by witnesses and counterexamples -/

/-- A concrete monospaced metric font: every string is 24 pixels per
character wide and 24 pixels tall (a plausible metric for a 24 px font;
any metric font works for the statements that use it). -/
def constFont : Font := ⟨fun s => 24 * s.length, fun _ => 24⟩

/-- A backend whose five fonts all carry `constFont` metrics. -/
def constM : Metrics := ⟨constFont, constFont, constFont, constFont, constFont⟩

/-- The combined canvas `text_with_qr_to_image` produces for the text
`"x"` and the payload `"https://example.com"` under `constM`/`cfg0`. -/
def combinedEx : CombinedImage :=
  { width := 512, height := 602, textPos := (0, 0), qrPos := (0, 90),
    textImg := ⟨64, 70, [(20, 20, "x", Style.Plain)]⟩,
    qrImg := ⟨2, 512, 512⟩ }

/-- An environment in which exactly the two DejaVu fonts (regular and
bold) are loadable. -/
def envDejaVu : String → Bool := fun p =>
  p == "/usr/share/fonts/truetype/dejavu/DejaVuSans.ttf" ||
  p == "/usr/share/fonts/truetype/dejavu/DejaVuSans-Bold.ttf"

/-! # Helper lemmas -/

/-- An element not satisfying `p` survives `dropWhile p`. -/
theorem mem_dropWhile_of_mem {c : Char} {p : Char → Bool} :
    ∀ {l : List Char}, c ∈ l → p c = false → c ∈ l.dropWhile p := by
  intro l h hc
  induction l with
  | nil => cases h
  | cons x xs ih =>
    rw [List.dropWhile_cons]
    split
    · rcases List.mem_cons.mp h with h1 | h1
      · subst h1; simp_all
      · exact ih h1
    · exact h

/-- A character of the stripped string is a character of the string. -/
theorem pyContains_of_pyStrip {s : String} {c : Char}
    (h : pyContains (pyStrip s) c = true) : pyContains s c = true := by
  simp only [pyContains, pyStrip, List.contains_iff_exists_mem_beq] at h ⊢
  rcases h with ⟨a, ha, hab⟩
  refine ⟨a, ?_, hab⟩
  have h1 := List.mem_reverse.mp ha
  have h2 := (List.dropWhile_sublist _).mem h1
  have h3 := List.mem_reverse.mp h2
  exact (List.dropWhile_sublist _).mem h3

/-- A string containing a non-whitespace character such as `'|'` does not
strip to the empty string. -/
theorem pyStrip_ne_empty_of_contains_bar {s : String}
    (h : pyContains s '|' = true) : (pyStrip s == "") = false := by
  simp only [pyContains, List.contains_iff_exists_mem_beq] at h
  rcases h with ⟨a, ha, hab⟩
  have haeq : a = '|' := by simpa using (beq_iff_eq.mp hab).symm
  subst haeq
  have hw : Char.isWhitespace '|' = false := by decide
  have h1 : '|' ∈ s.toList.dropWhile Char.isWhitespace :=
    mem_dropWhile_of_mem ha hw
  have h2 : '|' ∈ (s.toList.dropWhile Char.isWhitespace).reverse :=
    List.mem_reverse.mpr h1
  have h3 : '|' ∈ ((s.toList.dropWhile Char.isWhitespace).reverse.dropWhile
      Char.isWhitespace).reverse :=
    List.mem_reverse.mpr (mem_dropWhile_of_mem h2 hw)
  have hne : ((s.toList.dropWhile Char.isWhitespace).reverse.dropWhile
      Char.isWhitespace).reverse ≠ [] := List.ne_nil_of_mem h3
  simp only [pyStrip]
  cases hc : ((s.toList.dropWhile Char.isWhitespace).reverse.dropWhile
      Char.isWhitespace).reverse with
  | nil => exact absurd hc hne
  | cons x xs => rfl

/-- Greedy-wrap invariant: if the current candidate is within budget or
satisfies `P`, and all remaining words satisfy `P`, then every produced
line is within budget or satisfies `P`. -/
theorem wrapGo_budget (width : Nat) (P : String → Prop) :
    ∀ (ws : List String) (cur : String), cur.length ≤ width ∨ P cur →
      (∀ w ∈ ws, P w) → ∀ l ∈ wrapGo width cur ws,
      l.length ≤ width ∨ P l := by
  intro ws
  induction ws with
  | nil =>
    intro cur hcur _ l hl
    simp only [wrapGo, List.mem_singleton] at hl
    subst hl; exact hcur
  | cons w rest ih =>
    intro cur hcur hws l hl
    simp only [wrapGo] at hl
    by_cases hc : cur.length + 1 + w.length ≤ width
    · rw [if_pos hc] at hl
      refine ih (cur ++ " " ++ w) (Or.inl ?_)
        (fun x hx => hws x (List.mem_cons_of_mem _ hx)) l hl
      have hlen : (cur ++ " " ++ w).length = cur.length + 1 + w.length := by
        have h1 : String.length " " = 1 := rfl
        simp only [String.length_append, h1]
      omega
    · rw [if_neg hc] at hl
      rcases List.mem_cons.mp hl with h1 | h1
      · subst h1; exact hcur
      · exact ih w (Or.inr (hws w (List.mem_cons_self _ _)))
          (fun x hx => hws x (List.mem_cons_of_mem _ hx)) l h1

/-- `getD` below the pad length is unchanged by truncating to `n` entries
and padding with default entries up to `n`. -/
theorem getD_take_pad (d : String) :
    ∀ (row : List String) (n j : Nat), j < n →
      (row.take n ++ List.replicate (n - row.length) d).getD j d =
        row.getD j d := by
  intro row
  induction row with
  | nil =>
    intro n j hj
    simp only [List.take_nil, List.nil_append, List.length_nil, Nat.sub_zero]
    induction n generalizing j with
    | zero => omega
    | succ m ihm =>
      cases j with
      | zero => simp [List.replicate_succ]
      | succ k =>
        simp only [List.replicate_succ, List.getD_cons_succ, List.getD_nil]
        have := ihm k (by omega)
        simp only [List.take_nil, List.nil_append] at this
        exact this
  | cons r rs ih =>
    intro n j hj
    cases n with
    | zero => omega
    | succ m =>
      cases j with
      | zero => simp [List.take_succ_cons]
      | succ k =>
        simp only [List.take_succ_cons, List.length_cons, List.cons_append,
          List.getD_cons_succ, Nat.succ_sub_succ]
        exact ih m k (by omega)

/-- Mapping over `enumFrom` only evaluates the function at in-range
indices. -/
theorem enumFrom_map_congr {α β : Type} (f g : Nat × α → β) :
    ∀ (l : List α) (k : Nat),
      (∀ j w, k ≤ j → j < k + l.length → f (j, w) = g (j, w)) →
      (l.enumFrom k).map f = (l.enumFrom k).map g := by
  intro l
  induction l with
  | nil => intro k _; rfl
  | cons x xs ih =>
    intro k h
    simp only [List.enumFrom, List.map_cons]
    rw [h k x (Nat.le_refl k) (by simp), ih (k + 1)
      (fun j w hj1 hj2 => h j w (by omega) (by simp at hj2 ⊢; omega))]

/-! # Claim C1 -/

/-- C1 counterexample: with the default configuration (content width
`512 - 2*20 = 472`) and a 24 px/char metric font, the single input line
of twenty `a`s is wrapped to itself (it fits the 35-character budget of
`textwrap.fill(..., width=35)`) and its rendered pixel width, `480`,
exceeds the content width — the wrap never measures pixel width, so the
claimed bound `pixelWidth(line) ≤ contentWidth` fails. -/
theorem C1_cx_pixel_width_exceeds_content_width :
    wrappedStyledLines constM cfg0 "aaaaaaaaaaaaaaaaaaaa" false =
      [("aaaaaaaaaaaaaaaaaaaa", Style.Plain)]
    ∧ contentWidth cfg0 < constFont.widthOf "aaaaaaaaaaaaaaaaaaaa" := by
  constructor
  · decide
  · decide

/-- C1 (amended): the wrapping step of `text_to_image` is a greedy *word*
wrap on a fixed budget of 35 *characters*, not a pixel-width-measured
wrap: every wrapped line either has at most 35 characters or is a single
input word passed through unsplit (`break_long_words=False`); the
rendered pixel width of a wrapped line is not bounded by the content
width. -/
theorem C1_wrap_is_char_budget_word_wrap (width : Nat) (s l : String)
    (h : l ∈ fillLines width s) : l.length ≤ width ∨ l ∈ pyWords s := by
  unfold fillLines at h
  cases hw : pyWords s with
  | nil =>
    rw [hw] at h
    simp only [List.mem_singleton] at h
    subst h
    left
    exact Nat.zero_le width
  | cons w rest =>
    rw [hw] at h
    exact wrapGo_budget width (fun x => x ∈ w :: rest) rest w
      (Or.inr (List.mem_cons_self _ _))
      (fun x hx => List.mem_cons_of_mem _ hx) l h

/-- C1 witness: a concrete wrapped line satisfying the amended budget
property. -/
theorem C1_wrap_is_char_budget_word_wrap_witness :
    ("hello world").length ≤ 35 ∨ "hello world" ∈ pyWords "hello world" :=
  C1_wrap_is_char_budget_word_wrap 35 "hello world" "hello world" (by decide)

/-! # Claim C2 -/

/-- C2 counterexample: the 15-byte payload `"abcdefghijklmno"` exceeds the
version-1 level-M capacity (14 bytes), yet `generate_qr_code` succeeds —
`make(fit=True)` silently rebuilds the symbol at version 2 instead of
raising a hard error. -/
theorem C2_cx_payload_over_v1_capacity_succeeds :
    capM 1 < utf8Len "abcdefghijklmno"
    ∧ generateQr 512 "abcdefghijklmno" = Except.ok ⟨2, 512, 512⟩ :=
  ⟨by decide, rfl⟩

/-- C2 (amended): because `QRCode(version=1)` is combined with
`make(fit=True)`, the generator auto-upgrades to the smallest QR version
whose level-M capacity fits the payload; it raises a hard error only when
the payload exceeds the version-40 capacity (2331 bytes), and every
payload within that capacity succeeds. -/
theorem C2_qr_succeeds_iff_fits_some_version (max_width : Nat)
    (data : String) :
    (∃ qi, generateQr max_width data = Except.ok qi) ↔
      utf8Len data ≤ 2331 := by
  unfold generateQr
  cases hbf : bestFit (utf8Len data) 1 with
  | none =>
    simp only [hbf]
    constructor
    · rintro ⟨qi, h⟩
      cases h
    · intro hle
      exfalso
      unfold bestFit at hbf
      have h40 : (40 : Nat) ∈ List.range' 1 (41 - 1) := by decide
      have := List.find?_eq_none.mp hbf 40 h40
      have hcap : capM 40 = 2331 := by decide
      simp only [hcap, decide_eq_true_eq] at this
      omega
  | some v =>
    simp only [hbf]
    constructor
    · rintro ⟨qi, h⟩
      unfold bestFit at hbf
      have hp := List.find?_some hbf
      have hv := List.mem_of_find?_eq_some hbf
      have hle : utf8Len data ≤ capM v := by
        simpa using hp
      have hcap : ∀ u ∈ List.range' 1 (41 - 1), capM u ≤ 2331 := by decide
      exact Nat.le_trans hle (hcap v hv)
    · intro _
      split
      · exact ⟨_, rfl⟩
      · exact ⟨_, rfl⟩

/-! # Claim C3 -/

/-- C3 counterexample: on the markdown table `"a|b\n--|--\nc|d"` *without*
enclosing pipes, the cell extraction `row.split('|')[1:-1]` drops the
leading and trailing fields — which here are the actual cells — so the
parse yields an empty Bold header line, an empty separator, and *no* data
line, not the claimed `"a  |b  "` / dashes / `"c  |d  "`. -/
theorem C3_cx_bare_table_yields_empty_lines :
    parseMarkdown "a|b\n--|--\nc|d" =
      [("", Style.Bold), ("", Style.Plain), ("", Style.Plain)]
    ∧ ("a  |b  ", Style.Bold) ∉ parseMarkdown "a|b\n--|--\nc|d" := by
  constructor
  · decide
  · decide

/-- C3 (amended): the claimed output is produced for the same table
written with enclosing pipes, `"|a|b|\n|--|--|\n|c|d|"`: a Bold header
line `"a  |b  "` with each cell left-justified to width
`min(max cell length + 2, 15) = 3`, a Plain dash separator of the header
line's length, a Plain data line `"c  |d  "`, and the trailing blank
spacing line; for rows without enclosing pipes the split-and-drop cell
extraction leaves no cells, so header and separator come out empty and
data rows are dropped. -/
theorem C3_piped_table_formats_as_claimed :
    parseMarkdown "|a|b|\n|--|--|\n|c|d|" =
      [("a  |b  ", Style.Bold), ("-------", Style.Plain),
       ("c  |d  ", Style.Plain), ("", Style.Plain)] := by
  decide

/-! # Claim C4 -/

/-- C4: every canvas the engine returns stays within the configured
maximum receipt width: the text canvas (its width is
`min(max_width, content + 2*padding)`), every successfully generated QR
bitmap (clamped by the final downscale), and the built canvas with or
without a QR payload (the maximum of two bounded widths). -/
theorem C4_canvas_width_bounded (m : Metrics) (cfg : Config)
    (text : String) (is_markdown : Bool) :
    (textToImage m cfg text is_markdown).width ≤ cfg.max_width
    ∧ (∀ s qi, generateQr cfg.max_width s = Except.ok qi →
        qi.width ≤ cfg.max_width)
    ∧ (∀ qr_data img,
        textWithQr m cfg text qr_data is_markdown = Except.ok img →
        img.width ≤ cfg.max_width) := by
  have hti : (textToImage m cfg text is_markdown).width ≤ cfg.max_width := by
    simp only [textToImage]
    exact Nat.min_le_left _ _
  have hqr : ∀ s qi, generateQr cfg.max_width s = Except.ok qi →
      qi.width ≤ cfg.max_width := by
    intro s qi h
    unfold generateQr at h
    cases hbf : bestFit (utf8Len s) 1 with
    | none => rw [hbf] at h; cases h
    | some v =>
      rw [hbf] at h
      simp only [] at h
      split at h
      · injection h with h'
        subst h'
        exact Nat.le_refl _
      · injection h with h'
        subst h'
        exact Nat.le_of_not_lt (by assumption)
  refine ⟨hti, hqr, ?_⟩
  intro qr_data img h
  unfold textWithQr at h
  cases qr_data with
  | none =>
    simp only [] at h
    injection h with h'
    subst h'
    exact hti
  | some s =>
    simp only [] at h
    split at h
    · injection h with h'
      subst h'
      exact hti
    · cases hq : generateQr cfg.max_width s with
      | error e => rw [hq] at h; cases h
      | ok qi =>
        rw [hq] at h
        simp only [] at h
        injection h with h'
        subst h'
        simp only [BuiltImage.width]
        exact Nat.max_le.mpr ⟨hti, hqr s qi hq⟩

/-- C4 witness: the width bounds at concrete inputs, with the inner
hypotheses discharged at the payload `"abc"` and at an absent payload. -/
theorem C4_canvas_width_bounded_witness :
    (textToImage constM cfg0 "hi" false).width ≤ cfg0.max_width
    ∧ (⟨1, 512, 512⟩ : QrImage).width ≤ cfg0.max_width
    ∧ (BuiltImage.textOnly (textToImage constM cfg0 "hi" false)).width ≤
        cfg0.max_width :=
  ⟨(C4_canvas_width_bounded constM cfg0 "hi" false).1,
   (C4_canvas_width_bounded constM cfg0 "hi" false).2.1 "abc"
     ⟨1, 512, 512⟩ rfl,
   (C4_canvas_width_bounded constM cfg0 "hi" false).2.2 none
     (BuiltImage.textOnly (textToImage constM cfg0 "hi" false)) rfl⟩

/-! # Claim C5 -/

/-- C5 counterexample: calling `_parse_table` on a block that captures
only one row (`"a|b"` followed by a line without `'|'`) consumes one line
and emits *no* styled lines at all — in particular the consumed line
`"a|b"` is not re-emitted as a Plain styled line; its text is dropped by
the table parser. -/
theorem C5_cx_abort_emits_no_plain_line :
    parseTable ["a|b", "x"] 0 = ([], 1)
    ∧ ("a|b", Style.Plain) ∉ (parseTable ["a|b", "x"] 0).1 := by
  constructor
  · decide
  · decide

/-- C5 (amended): when a candidate block captures fewer than two rows,
`_parse_table` consumes exactly one line and emits *no* styled lines (the
line's text is dropped, not re-emitted as Plain; the caller appends only a
blank spacing line); moreover this abort path is unreachable from
`_parse_markdown_to_formatted_lines`, whose table guard — the stripped
current line and the raw next line both contain `'|'` — forces the scan to
capture at least two rows. -/
theorem C5_malformed_table_abort :
    (∀ (lines : List String) (start_idx : Nat),
      (tableScanAux (lines.drop start_idx)).1.length < 2 →
      parseTable lines start_idx = ([], start_idx + 1))
    ∧ (∀ (l l2 : String) (rest : List String),
      pyContains (pyStrip l) '|' = true → pyContains l2 '|' = true →
      2 ≤ (tableScanAux (l :: l2 :: rest)).1.length) := by
  constructor
  · intro lines start_idx h
    unfold parseTable parseTableRel
    simp only [if_pos h]
  · intro l l2 rest h1 h2
    have hc1 : pyContains l '|' = true := pyContains_of_pyStrip h1
    have hb1 : (pyStrip l == "") = false := pyStrip_ne_empty_of_contains_bar hc1
    have hb2 : (pyStrip l2 == "") = false := pyStrip_ne_empty_of_contains_bar h2
    simp only [tableScanAux, hc1, h2, hb1, hb2, Bool.true_or, if_true,
      Bool.false_eq_true, if_false, List.length_cons]
    omega

/-- C5 witness: the abort equation at a concrete malformed block, and the
two-row lower bound at a concrete well-formed block. -/
theorem C5_malformed_table_abort_witness :
    parseTable ["x|y", "z"] 0 = ([], 0 + 1)
    ∧ 2 ≤ (tableScanAux ["c|d", "e|f"]).1.length :=
  ⟨C5_malformed_table_abort.1 ["x|y", "z"] 0 (by decide),
   C5_malformed_table_abort.2 "c|d" "e|f" [] (by decide) (by decide)⟩

/-! # Claim C6 -/

/-- C6 counterexample: for `build("x", false, "https://example.com")`
with 24 px/char metrics, the text canvas (width 64) is narrower than the
QR bitmap (width 512), yet it is pasted at x = 0 — not horizontally
centered, which would put it at x = (512 - 64) / 2 = 224.  Only the QR
bitmap is centered. -/
theorem C6_cx_narrower_text_not_centered :
    textWithQr constM cfg0 "x" (some "https://example.com") false =
      Except.ok (BuiltImage.withQr combinedEx)
    ∧ combinedEx.textImg.width < combinedEx.qrImg.width
    ∧ combinedEx.textPos.1 ≠
        (combinedEx.width - combinedEx.textImg.width) / 2 :=
  ⟨rfl, by decide, by decide⟩

/-- C6 (amended): with a present non-empty QR payload that encodes, the
combined canvas has height `text height + QR height + padding`, width
`max(text width, QR width)`, the text canvas pasted on top at `(0, 0)`
(always left-aligned, even when it is the narrower of the two), and the
QR bitmap below at `((width - qr width) / 2, text height + padding)` —
only the QR bitmap is horizontally centered. -/
theorem C6_composition_layout (m : Metrics) (cfg : Config)
    (text s : String) (is_markdown : Bool) (c : CombinedImage)
    (hs : (s == "") = false)
    (h : textWithQr m cfg text (some s) is_markdown =
      Except.ok (BuiltImage.withQr c)) :
    c.textImg = textToImage m cfg text is_markdown
    ∧ c.height = c.textImg.height + c.qrImg.height + cfg.padding
    ∧ c.width = max c.textImg.width c.qrImg.width
    ∧ c.textPos = (0, 0)
    ∧ c.qrPos = ((c.width - c.qrImg.width) / 2,
        c.textImg.height + cfg.padding) := by
  unfold textWithQr at h
  simp only [] at h
  split at h
  · rename_i hcond
    rw [hs] at hcond
    cases hcond
  · cases hq : generateQr cfg.max_width s with
    | error e => rw [hq] at h; cases h
    | ok qi =>
      rw [hq] at h
      simp only [] at h
      injection h with h'
      injection h' with h''
      subst h''
      exact ⟨rfl, rfl, rfl, rfl, rfl⟩

/-- C6 witness: the layout equations at the concrete combined canvas of
`build("x", false, "https://example.com")`. -/
theorem C6_composition_layout_witness :
    combinedEx.textImg = textToImage constM cfg0 "x" false
    ∧ combinedEx.height =
        combinedEx.textImg.height + combinedEx.qrImg.height + cfg0.padding
    ∧ combinedEx.width = max combinedEx.textImg.width combinedEx.qrImg.width
    ∧ combinedEx.textPos = (0, 0)
    ∧ combinedEx.qrPos = ((combinedEx.width - combinedEx.qrImg.width) / 2,
        combinedEx.textImg.height + cfg0.padding) :=
  C6_composition_layout constM cfg0 "x" "https://example.com" false
    combinedEx (by decide) rfl

/-! # Claim C7 -/

/-- C7: in an environment where some regular candidate and some bold
candidate load (with distinct winning paths) and the base size is at
least 5 (so that truncated scaling still enlarges), the header fonts
resolve at `int(font_size * 1.8)`, `int(font_size * 1.5)`,
`int(font_size * 1.2)` pixels, every header size strictly exceeds the
Plain size, and the Bold font is a distinct (dedicated bold) asset, not
the Plain font. -/
theorem C7_header_scales_and_bold_asset (env : String → Bool)
    (font_size : Nat) (p q : String)
    (hfs : 5 ≤ font_size)
    (hp : font_paths.find? env = some p)
    (hq : bold_font_paths.find? env = some q)
    (hne : q ≠ p) :
    (mkFonts env font_size).h1_font.size = font_size * 18 / 10
    ∧ (mkFonts env font_size).h2_font.size = font_size * 15 / 10
    ∧ (mkFonts env font_size).h3_font.size = font_size * 12 / 10
    ∧ (mkFonts env font_size).font.size = font_size
    ∧ font_size < (mkFonts env font_size).h1_font.size
    ∧ font_size < (mkFonts env font_size).h2_font.size
    ∧ font_size < (mkFonts env font_size).h3_font.size
    ∧ (mkFonts env font_size).bold_font ≠ (mkFonts env font_size).font := by
  have h12 : font_size < font_size * 12 / 10 := by
    have h10 : 0 < 10 := by norm_num
    have : font_size + 1 ≤ font_size * 12 / 10 :=
      (Nat.le_div_iff_mul_le h10).mpr (by omega)
    omega
  have h15 : font_size < font_size * 15 / 10 := by
    have h10 : 0 < 10 := by norm_num
    have : font_size + 1 ≤ font_size * 15 / 10 :=
      (Nat.le_div_iff_mul_le h10).mpr (by omega)
    omega
  have h18 : font_size < font_size * 18 / 10 := by
    have h10 : 0 < 10 := by norm_num
    have : font_size + 1 ≤ font_size * 18 / 10 :=
      (Nat.le_div_iff_mul_le h10).mpr (by omega)
    omega
  unfold mkFonts firstLoadable
  simp only [hp, hq, Option.map_some']
  refine ⟨trivial, trivial, trivial, trivial, h18, h15, h12, ?_⟩
  intro heq
  exact hne (congrArg FontAsset.path heq)

/-- C7 witness: the conclusions at the DejaVu environment with the
default base size 24 (header sizes 43, 36, 28). -/
theorem C7_header_scales_and_bold_asset_witness :
    (mkFonts envDejaVu 24).h1_font.size = 24 * 18 / 10
    ∧ (mkFonts envDejaVu 24).h2_font.size = 24 * 15 / 10
    ∧ (mkFonts envDejaVu 24).h3_font.size = 24 * 12 / 10
    ∧ (mkFonts envDejaVu 24).font.size = 24
    ∧ 24 < (mkFonts envDejaVu 24).h1_font.size
    ∧ 24 < (mkFonts envDejaVu 24).h2_font.size
    ∧ 24 < (mkFonts envDejaVu 24).h3_font.size
    ∧ (mkFonts envDejaVu 24).bold_font ≠ (mkFonts envDejaVu 24).font :=
  C7_header_scales_and_bold_asset envDejaVu 24
    "/usr/share/fonts/truetype/dejavu/DejaVuSans.ttf"
    "/usr/share/fonts/truetype/dejavu/DejaVuSans-Bold.ttf"
    (by decide) (by decide) (by decide) (by decide)

/-! # Claim C8 -/

/-- C8: with a fixed font configuration, `text_with_qr_to_image` is
deterministic and idempotent: the call leaves the instance unchanged (no
method after `__init__` assigns an attribute), and a second call on the
post-call instance with identical arguments returns an identical
canvas. -/
theorem C8_build_deterministic_stateless (b : Backend) (text : String)
    (qr_data : Option String) (is_markdown : Bool) :
    (textWithQrSt b text qr_data is_markdown).2 = b
    ∧ (textWithQrSt (textWithQrSt b text qr_data is_markdown).2 text
        qr_data is_markdown).1 =
      (textWithQrSt b text qr_data is_markdown).1 :=
  ⟨rfl, rfl⟩

/-! # Claim C9 -/

/-- C9: an empty-string QR payload is falsy in `if qr_data:`, so the
builder returns exactly the text-only canvas — identical to the absent
(`None`) payload — and QR generation is never reached, so no QR encode
error can occur. -/
theorem C9_empty_qr_payload_is_text_only (m : Metrics) (cfg : Config)
    (text : String) (is_markdown : Bool) :
    textWithQr m cfg text (some "") is_markdown =
      Except.ok (BuiltImage.textOnly (textToImage m cfg text is_markdown))
    ∧ textWithQr m cfg text none is_markdown =
      Except.ok (BuiltImage.textOnly (textToImage m cfg text is_markdown)) :=
  ⟨rfl, rfl⟩

/-! # Claim C10 -/

/-- C10: table formatting is total on ragged rows: a formatted data row
only reads the first `len(col_widths)` cells — a row with fewer cells is
read as if padded with empty cells up to the header's column count, and
cells beyond that count are silently dropped — and the per-column width
list always has exactly one entry per header column, so no row shape can
cause an out-of-range access. -/
theorem C10_ragged_rows_pad_and_drop :
    (∀ (col_widths : List Nat) (row : List String),
      rowText col_widths row =
        rowText col_widths (row.take col_widths.length ++
          List.replicate (col_widths.length - row.length) ""))
    ∧ ∀ (header_cells : List String) (data_rows : List (List String)),
        (colWidths header_cells data_rows).length = header_cells.length := by
  constructor
  · intro col_widths row
    unfold rowText
    congr 1
    refine (enumFrom_map_congr _ _ col_widths 0 ?_).symm
    intro j w hj1 hj2
    simp only [Nat.zero_add] at hj2
    rw [getD_take_pad "" row col_widths.length j hj2]
  · intro hc rows
    unfold colWidths
    simp

end ReceiptPrinter
